import Mathlib

/-!
Shallow embedding of Bathbot's command dispatch and interactive session
runtime: the authority gate and rate-limit checks of
`src/core/commands/mod.rs` and the reaction-driven profile pagination of
`src/pagination/profile.rs`.  Components of the repository that the checks
call but whose source is not part of the snapshot (the entity cache's
permission computation, the bucket internals, the router entry points) are
modelled from the specification and marked as such in their doc comments.
-/

namespace Bathbot

/-! ## Data model: ids, permissions, cache -/

/-- A member record as read from the entity cache: the member's role ids. -/
structure Member where
  roles : List Nat
  deriving DecidableEq, Repr

/-- Typed cache-miss signal: absence is represented, never guessed. -/
inductive CacheMiss where
  | member (guild : Nat) (user : Nat)
  | role (guild : Nat) (role : Nat)
  deriving DecidableEq, Repr

/-- The entity cache, read-only as seen by the authority check: member
records keyed by (guild, user) and role permission bits keyed by
(guild, role). -/
structure Cache where
  members : Nat → Nat → Option Member
  rolePerms : Nat → Nat → Option Nat

/-- The ADMINISTRATOR permission bit (bit 3 of the permission bitset). -/
def ADMINISTRATOR : Nat := 8

/-- Whether a permission bitset contains the ADMINISTRATOR bit
(`Permissions::contains(Permissions::ADMINISTRATOR)`). -/
def containsAdmin (p : Nat) : Bool := p &&& ADMINISTRATOR = ADMINISTRATOR

/-- Modelled from the spec: `EntityCache.permissions_of` (spec 4.1), the
`ctx.cache.permissions().root(author_id, guild_id)` call of
`_check_authority`; the cache module itself is not part of the source
snapshot.  It combines the actor's role memberships with each role's
permission bits; if the member record is absent the call returns a typed
cache-miss rather than a default value, and a missing role record is
likewise a typed miss (absence is represented, never guessed). -/
def permissions_root (c : Cache) (author_id : Nat) (guild_id : Nat) :
    Except CacheMiss Nat :=
  match c.members guild_id author_id with
  | none => Except.error (CacheMiss.member guild_id author_id)
  | some m =>
    m.roles.foldlM
      (fun acc r =>
        match c.rolePerms guild_id r with
        | none => Except.error (CacheMiss.role guild_id r)
        | some p => Except.ok (acc ||| p))
      0

/-! ## Buckets (`src/core/buckets` is not in the snapshot; modelled from
spec 4.2) -/

/-- The enumerated bucket names.  `Snipe` and `Songs` are named in
`_check_ratelimit`; `Default` stands for the remaining variants, which the
wildcard arm of that match treats identically (per-actor key). -/
inductive BucketName where
  | Snipe
  | Songs
  | Default
  deriving DecidableEq, Repr

/-- One per-key rate-limit counter: units consumed in the current window
and the timestamp of the window's last refill. -/
structure Counter where
  used : Nat
  lastRefill : Int
  deriving DecidableEq, Repr

/-- A named bucket: capacity, refill interval, and a keyed set of
counters (association list keyed by the u64-derived key). -/
structure Bucket where
  capacity : Nat
  interval : Int
  counters : List (Nat × Counter)
  deriving DecidableEq, Repr

/-- Store a counter under a key in the association list, replacing any
previous binding. -/
def setCounter (l : List (Nat × Counter)) (k : Nat) (v : Counter) :
    List (Nat × Counter) :=
  match l with
  | [] => [(k, v)]
  | (k0, v0) :: rest =>
    if k0 = k then (k, v) :: rest else (k0, v0) :: setCounter rest k v

/-- Look up a counter by key. -/
def getCounter (l : List (Nat × Counter)) (k : Nat) : Option Counter :=
  match l with
  | [] => none
  | (k0, v0) :: rest => if k0 = k then some v0 else getCounter rest k

/-- Modelled from the spec: `BucketRegistry.take` (spec 4.2); the bucket
module is not part of the source snapshot.  `take` atomically consumes one
unit if available and returns zero; otherwise it returns the time
remaining until the next unit is available, computed from the counter's
last-refill timestamp and the configured interval, with no side effect on
a rejected take beyond the bookkeeping for the next computation. -/
def Bucket.take (b : Bucket) (key : Nat) (now : Int) : Int × Bucket :=
  let c0 := (getCounter b.counters key).getD ⟨0, now⟩
  let c := if c0.lastRefill + b.interval ≤ now then ⟨0, now⟩ else c0
  if c.used < b.capacity then
    (0, { b with counters := setCounter b.counters key ⟨c.used + 1, c.lastRefill⟩ })
  else
    (c.lastRefill + b.interval - now,
      { b with counters := setCounter b.counters key c })

/-! ## Context and the checks of `src/core/commands/mod.rs` -/

/-- The slice of `Context` the checks read: the entity cache, the per-guild
configured authority role list (`GuildConfig.authorities`, an ordered
`Vec<u64>`), and the bucket registry. -/
structure Context where
  cache : Cache
  authorities : Nat → List Nat
  buckets : BucketName → Bucket

/-- Modelled from the spec: `ctx.config_authorities_collect(guild_id,
to_role)` (the context module is not part of the snapshot) collects the
guild's configured authority role ids, in the configured order, mapping
each through `to_role` (`RoleId::new`, the identity on the numeric id). -/
def config_authorities_collect (ctx : Context) (guild_id : Nat) : List Nat :=
  ctx.authorities guild_id

/-- The error type of `BotResult` as the checks use it:
`Error::MissingInteractionAuthor`, `Error::Custom` (produced by `bail!`),
and `Error::Authority` (the router's wrapper). -/
inductive BotError where
  | missingInteractionAuthor
  | custom (msg : String)
  | authority (source : BotError)
  deriving DecidableEq, Repr

/-- The denial text returned when the guild's authority list is empty
(lines 78-81 of `src/core/commands/mod.rs`). -/
def adminNeededContent : String :=
  "You need admin permissions to use this command.\n(`/authorities` to adjust authority status for this server)"

/-- The role-enumerating denial text (lines 84-102): header, then
`write!(content, "<@&{}>", first)` followed by
`write!(content, ", <@&{}>", role)` for each further configured role,
then the guidance footer. -/
def rolesNeededContent (auth_roles : List Nat) : String :=
  let header := "You need either admin permissions or any of these roles to use this command:\n"
  let body :=
    match auth_roles with
    | [] => ""
    | first :: rest =>
      rest.foldl (fun acc role => acc ++ ", <@&" ++ toString role ++ ">")
        ("<@&" ++ toString first ++ ">")
  header ++ body ++ "\n(`/authorities` to adjust authority status for this server)"

/-- The function `_check_authority` (lines 58-109 of `src/core/commands/mod.rs`).
`Except.ok none` is "is authority", `Except.ok (some msg)` is "no
authority, message to user", `Except.error` is "couldn't figure out". -/
def _check_authority (ctx : Context) (author_id : Nat)
    (guild_id : Option Nat) : Except BotError (Option String) :=
  match guild_id with
  | none => Except.ok (some "")
  | some gid =>
    let permissions := ((permissions_root ctx.cache author_id gid).toOption).getD 0
    if containsAdmin permissions then
      Except.ok none
    else
      let auth_roles := config_authorities_collect ctx gid
      if auth_roles.isEmpty then
        Except.ok (some adminNeededContent)
      else
        match ctx.cache.members gid author_id with
        | some member =>
          if ¬ member.roles.any (fun role => auth_roles.contains role) then
            Except.ok (some (rolesNeededContent auth_roles))
          else
            Except.ok none
        | none =>
          Except.error (BotError.custom s!"member {author_id} not cached for guild {gid}")

/-- The `Authored` data the checks read: an optional author (with id) and
an optional guild id. -/
structure AuthoredData where
  author : Option Nat
  guild_id : Option Nat
  deriving DecidableEq, Repr

/-- The wrapper `check_authority` (lines 51-56): a missing author is the
`MissingInteractionAuthor` error; otherwise delegate. -/
def check_authority (ctx : Context) (authored : AuthoredData) :
    Except BotError (Option String) :=
  match authored.author with
  | none => Except.error BotError.missingInteractionAuthor
  | some author_id => _check_authority ctx author_id authored.guild_id

/-- The key `_check_ratelimit` derives for a bucket (the match of lines
135-143): `Snipe` uses the fixed sentinel 0 (same bucket for everyone),
`Songs` uses the guild id when present else the author id, and every
other bucket uses the author id. -/
def bucketKey (bucket : BucketName) (author_id : Nat)
    (guild_id : Option Nat) : Nat :=
  match bucket with
  | BucketName.Snipe => 0
  | BucketName.Songs =>
    match guild_id with
    | some gid => gid
    | none => author_id
  | BucketName.Default => author_id

/-- The function `_check_ratelimit` (lines 124-151): take one unit from the named
bucket under the derived key; report `some (ratelimit, bucket)` when the
returned cooldown is positive, else `none`.  The updated registry is
returned explicitly (the Rust mutates the bucket in place behind a
mutex). -/
def _check_ratelimit (ctx : Context) (author_id : Nat)
    (guild_id : Option Nat) (bucket : BucketName) (now : Int) :
    Option (Int × BucketName) × Context :=
  let b := ctx.buckets bucket
  let key := bucketKey bucket author_id guild_id
  let taken := b.take key now
  let ctx' := { ctx with
    buckets := fun n => if n = bucket then taken.2 else ctx.buckets n }
  if taken.1 > 0 then (some (taken.1, bucket), ctx') else (none, ctx')

/-- The wrapper `check_ratelimit` (lines 111-122): if the request carries no author,
the `?` returns `None` at once (no bucket is touched); otherwise
delegate. -/
def check_ratelimit (ctx : Context) (authored : AuthoredData)
    (bucket : BucketName) (now : Int) : Option (Int × BucketName) × Context :=
  match authored.author with
  | none => (none, ctx)
  | some author_id => _check_ratelimit ctx author_id authored.guild_id bucket now

/-! ## Profile pagination (`src/pagination/profile.rs`) -/

/-- The control emotes the session installs (`ProfilePagination::reactions`,
lines 34-36): expand then minimize, in that order. -/
inductive Emote where
  | expand
  | minimize
  deriving DecidableEq, Repr

/-- A reaction emoji as `process_reaction` matches it: a custom emote with
an optional name, or anything else (unicode, nameless custom). -/
inductive ReactionTy where
  | custom (nm : Option String)
  | other
  deriving DecidableEq, Repr

/-- The `PageChange` type of the pagination module. -/
inductive PageChange where
  | None
  | Change
  deriving DecidableEq, Repr

/-- The method `ProfilePagination::process_reaction` (lines 132-158) as a pure step
on the `minimized` flag: returns the `PageChange` and the new flag.
"expand" while minimized flips to expanded, "minimize" while expanded
flips to minimized; a recognized action matching the current state, an
unrecognized name, a nameless custom emote, or a non-custom emoji all
leave the flag unchanged. -/
def process_reaction (minimized : Bool) (r : ReactionTy) : PageChange × Bool :=
  match r with
  | ReactionTy.custom (some nm) =>
    match nm with
    | "expand" =>
      match minimized with
      | true => (PageChange.Change, false)
      | false => (PageChange.None, minimized)
    | "minimize" =>
      match minimized with
      | true => (PageChange.None, minimized)
      | false => (PageChange.Change, true)
    | _ => (PageChange.None, minimized)
  | _ => (PageChange.None, minimized)

/-- The method `ProfilePagination::next_page` (lines 109-130): apply the reaction;
on `Change` issue exactly one message update rendering the new state
(`as_builder` when minimized, `expand` otherwise) — recorded as the list
of rendered `minimized` values; on `None` no update is issued.  A failed
update is logged by the caller's loop and does not affect the flag, which
is already set before the update is sent. -/
def next_page (minimized : Bool) (r : ReactionTy) : Bool × List Bool :=
  match process_reaction minimized r with
  | (PageChange.Change, m') => (m', [m'])
  | (PageChange.None, _) => (minimized, [])

/-- A raw reaction-added event: arrival time (seconds), reacting user id,
and emoji. -/
structure RawReaction where
  time : Nat
  user : Nat
  emoji : ReactionTy
  deriving DecidableEq, Repr

/-- The `while let Some(Ok(reaction))` loop of `start` (lines 54-59) over
a timestamped event list.  The standby filter
`r.user_id == owner` drops non-owner events before they reach the stream
(so they neither mutate state nor reset the timer), and
`tokio_stream::StreamExt::timeout` is a per-item timeout: the stream
yields `Err(Elapsed)` — ending the loop — once `duration` passes since the
last delivered item (ties go to the timer, spec 5).  Returns the final
`minimized` flag and the list of rendered views (one per issued update),
with `last` the time of the most recently delivered owner event. -/
def runLoop (owner : Nat) (duration : Nat) :
    Bool → Nat → List RawReaction → Bool × List Bool
  | minimized, _, [] => (minimized, [])
  | minimized, last, e :: rest =>
    if e.user = owner then
      if e.time - last < duration then
        let step := next_page minimized e.emoji
        let restOut := runLoop owner duration step.1 e.time rest
        (restOut.1, step.2 ++ restOut.2)
      else
        (minimized, [])
    else
      runLoop owner duration minimized last rest

/-- Outcome of one outbound HTTP call as `start` distinguishes them:
success, a permission-class response error (status 403), or any other
error. -/
inductive HttpResult where
  | ok
  | err403
  | errOther
  deriving DecidableEq, Repr

/-- The environment of outbound-call outcomes `start` consumes: one per
initial `send_reaction`, the `ctx.remove_msg` result, the
`delete_all_reactions` outcome, one `delete_current_user_reaction`
outcome per emote, and the final `update_message` outcome. -/
structure StartEnv where
  sendOutcome : Emote → HttpResult
  removeMsg : Bool
  deleteAll : HttpResult
  deleteOwn : Emote → HttpResult
  finalUpdate : HttpResult

/-- The result `start` hands its caller: `Ok(())` or a propagated error. -/
inductive StartResult where
  | ok
  | err
  deriving DecidableEq, Repr

/-- One observable side effect of `start`. -/
inductive Effect where
  | sendReaction (e : Emote)
  | updateMessage (minimized : Bool)
  | deleteAllReactions
  | sleep
  | deleteOwnReaction (e : Emote)
  deriving DecidableEq, Repr

/-- The installed control reactions, in installation order. -/
def profileReactions : List Emote := [Emote.expand, Emote.minimize]

/-- The `for emote in &reactions { send_reaction(..).await? }` loop
(lines 43-45): each send is attempted in order; a failure propagates
immediately. -/
def sendLoop (env : StartEnv) : List Emote → StartResult × List Effect
  | [] => (StartResult.ok, [])
  | e :: rest =>
    match env.sendOutcome e with
    | HttpResult.ok =>
      let restOut := sendLoop env rest
      (restOut.1, Effect.sendReaction e :: restOut.2)
    | _ => (StartResult.err, [Effect.sendReaction e])

/-- The 403 fallback loop (lines 78-89): delete the bot's own reaction
for each installed emote in order; each call uses `?`, so the first
failure propagates and ends the loop. -/
def deleteOwnLoop (env : StartEnv) : List Emote → StartResult × List Effect
  | [] => (StartResult.ok, [])
  | e :: rest =>
    match env.deleteOwn e with
    | HttpResult.ok =>
      let restOut := deleteOwnLoop env rest
      (restOut.1, Effect.deleteOwnReaction e :: restOut.2)
    | _ => (StartResult.err, [Effect.deleteOwnReaction e])

/-- The final `if !self.minimized { update_message(..) }` step
(lines 96-104): when the view closed expanded, edit the anchor back to
the compact embed (`into_builder`); the call's failure propagates. -/
def finalUpdateStep (env : StartEnv) (minimized : Bool) :
    StartResult × List Effect :=
  if minimized then
    (StartResult.ok, [])
  else
    match env.finalUpdate with
    | HttpResult.ok => (StartResult.ok, [Effect.updateMessage true])
    | _ => (StartResult.err, [Effect.updateMessage true])

/-- The method `ProfilePagination::start` (lines 38-107) over a timestamped event
list and an outcome environment: install the control reactions, run the
reaction loop, and on close revoke the reactions — falling back to
deleting only the bot's own installed reactions when the bulk revocation
fails with a 403 — then restore the compact embed if the view closed
expanded.  `minimized0` is the flag at entry (`ProfilePagination::new`
sets it to `true`). -/
def profileStart (minimized0 : Bool) (owner : Nat) (duration : Nat)
    (events : List RawReaction) (env : StartEnv) :
    StartResult × List Effect :=
  let send := sendLoop env profileReactions
  match send.1 with
  | StartResult.err => (StartResult.err, send.2)
  | StartResult.ok =>
    let looped := runLoop owner duration minimized0 0 events
    let trace0 := send.2 ++ looped.2.map Effect.updateMessage
    if env.removeMsg = false then
      (StartResult.ok, trace0)
    else
      match env.deleteAll with
      | HttpResult.ok =>
        let fin := finalUpdateStep env looped.1
        (fin.1, trace0 ++ [Effect.deleteAllReactions] ++ fin.2)
      | HttpResult.err403 =>
        let fallback := deleteOwnLoop env profileReactions
        let trace1 := trace0 ++ [Effect.deleteAllReactions, Effect.sleep] ++ fallback.2
        match fallback.1 with
        | StartResult.err => (StartResult.err, trace1)
        | StartResult.ok =>
          let fin := finalUpdateStep env looped.1
          (fin.1, trace1 ++ fin.2)
      | HttpResult.errOther =>
        (StartResult.err, trace0 ++ [Effect.deleteAllReactions])

/-! ## Command router (spec 4.4; the entry points `handle_message` /
`handle_interaction` are not in the snapshot) -/

/-- The `ProcessResult` enum of `src/core/commands/mod.rs` (lines 23-31). -/
inductive ProcessResult where
  | Success
  | NoDM
  | NoSendPermission
  | Ratelimited (b : BucketName)
  | NoOwner
  | NoAuthority
  deriving DecidableEq, Repr

/-- What a command declares to the router: whether it is privileged
(authority-gated) and which bucket, if any, it declares. -/
structure CommandMeta where
  authority : Bool
  bucket : Option BucketName
  deriving DecidableEq, Repr

/-- An observable gate step of one routed invocation. -/
inductive RouteEvent where
  | authorityCheck
  | bucketTake (b : BucketName) (key : Nat)
  | dispatch
  deriving DecidableEq, Repr

/-- Result, updated context, and gate trace of one routed invocation. -/
structure RouteOutput where
  result : Except BotError ProcessResult
  ctx : Context
  trace : List RouteEvent

/-- The rate-limit-then-dispatch tail of the router: take from the
declared bucket (when the command declares one and the request has an
author), reject with `Ratelimited` on a positive cooldown, else dispatch. -/
def routeBucketStep (ctx : Context) (cmd : CommandMeta)
    (authored : AuthoredData) (now : Int) :
    Except BotError ProcessResult × Context × List RouteEvent :=
  match cmd.bucket with
  | none => (Except.ok ProcessResult.Success, ctx, [RouteEvent.dispatch])
  | some b =>
    match authored.author with
    | none => (Except.ok ProcessResult.Success, ctx, [RouteEvent.dispatch])
    | some author_id =>
      let checked := _check_ratelimit ctx author_id authored.guild_id b now
      let ev := RouteEvent.bucketTake b (bucketKey b author_id authored.guild_id)
      match checked.1 with
      | some pair =>
        (Except.ok (ProcessResult.Ratelimited pair.2), checked.2, [ev])
      | none =>
        (Except.ok ProcessResult.Success, checked.2, [ev, RouteEvent.dispatch])

/-- Modelled from the spec: the CommandRouter's gate sequencing
(spec 4.4); the entry points `handle_message` / `handle_interaction` are
not in the snapshot.  For a privileged command run `check_authority`
first and reject early — before any bucket is consulted — on a denial
(`NoAuthority`) or an indeterminate check (the error, wrapped as
`Error::Authority`); only then run the rate-limit check for the declared
bucket, rejecting on a positive cooldown; finally dispatch. -/
def process_command (ctx : Context) (cmd : CommandMeta)
    (authored : AuthoredData) (now : Int) : RouteOutput :=
  if cmd.authority then
    match check_authority ctx authored with
    | Except.error e =>
      ⟨Except.error (BotError.authority e), ctx, [RouteEvent.authorityCheck]⟩
    | Except.ok (some _) =>
      ⟨Except.ok ProcessResult.NoAuthority, ctx, [RouteEvent.authorityCheck]⟩
    | Except.ok none =>
      let tail := routeBucketStep ctx cmd authored now
      ⟨tail.1, tail.2.1, RouteEvent.authorityCheck :: tail.2.2⟩
  else
    let tail := routeBucketStep ctx cmd authored now
    ⟨tail.1, tail.2.1, tail.2.2⟩

/-! ## Spec-side and auxiliary definitions for the theorems -/

/-- The spec's reading of the denial enumeration: the configured roles,
in the configured order, as role mentions separated by a comma and a
space. -/
def enumerateRoles : List Nat → String
  | [] => ""
  | [r] => "<@&" ++ toString r ++ ">"
  | r :: rest => "<@&" ++ toString r ++ ">" ++ ", " ++ enumerateRoles rest

/-- Whether an effect is a deletion of the bot's own reaction. -/
def isOwnDeleteEffect : Effect → Bool
  | Effect.deleteOwnReaction _ => true
  | _ => false

/-- Whether a route event is a bucket take. -/
def isBucketTakeEvent : RouteEvent → Bool
  | RouteEvent.bucketTake _ _ => true
  | _ => false

/-- A one-unit, 60-second bucket with no counters yet, used by the
concrete fixtures. -/
def emptyBucket : Bucket := ⟨1, 60, []⟩

/-- A cache holding no members and no roles. -/
def cacheNone : Cache := ⟨fun _ _ => none, fun _ _ => none⟩

/-- Fixture: empty cache, no configured authority roles anywhere. -/
def ctxA : Context := ⟨cacheNone, fun _ => [], fun _ => emptyBucket⟩

/-- Fixture: empty cache, authority roles 5 and 9 configured for every
guild. -/
def ctxB : Context := ⟨cacheNone, fun _ => [5, 9], fun _ => emptyBucket⟩

/-- A cache in which every member holds exactly role 7 and every role
carries the empty permission set. -/
def cacheMember7 : Cache := ⟨fun _ _ => some ⟨[7]⟩, fun _ _ => some 0⟩

/-- Fixture: every member holds role 7 only, authority roles 5 and 9
configured. -/
def ctxC : Context := ⟨cacheMember7, fun _ => [5, 9], fun _ => emptyBucket⟩

/-! # Helper lemmas -/

/-- String append is associative. -/
theorem str_append_assoc (a b c : String) : a ++ b ++ c = a ++ (b ++ c) := by
  apply String.ext
  simp [String.data_append]

/-- An absent member record makes the permission computation a typed
cache-miss. -/
theorem permissions_root_none {c : Cache} {a g : Nat}
    (h : c.members g a = none) :
    permissions_root c a g = Except.error (CacheMiss.member g a) := by
  simp [permissions_root, h]

/-- The empty permission set lacks the administrator bit. -/
theorem containsAdmin_zero : containsAdmin 0 = false := by decide

/-- Pulling a fixed prefix out of the role-enumerating fold. -/
theorem foldl_roles_shift (l : List Nat) (a b : String) :
    l.foldl (fun acc role => acc ++ ", <@&" ++ toString role ++ ">") (a ++ b) =
      a ++ l.foldl (fun acc role => acc ++ ", <@&" ++ toString role ++ ">") b := by
  induction l generalizing b with
  | nil => rfl
  | cons x xs ih =>
    simp only [List.foldl_cons]
    rw [str_append_assoc a b, str_append_assoc a, str_append_assoc a]
    exact ih _

/-- The source's accumulating `write!` fold produces exactly the in-order
comma-separated enumeration of the roles. -/
theorem foldl_roles_enum (first : Nat) (rest : List Nat) :
    rest.foldl (fun acc role => acc ++ ", <@&" ++ toString role ++ ">")
      ("<@&" ++ toString first ++ ">") = enumerateRoles (first :: rest) := by
  induction rest generalizing first with
  | nil => rfl
  | cons r rs ih =>
    have hdata : (", <@&" : String).data = (", " : String).data ++ ("<@&" : String).data := by
      decide
    have hinit : "<@&" ++ toString first ++ ">" ++ ", <@&" ++ toString r ++ ">" =
        ("<@&" ++ toString first ++ ">" ++ ", ") ++ ("<@&" ++ toString r ++ ">") := by
      apply String.ext
      simp [String.data_append, hdata]
    simp only [List.foldl_cons]
    rw [hinit, foldl_roles_shift rs ("<@&" ++ toString first ++ ">" ++ ", "), ih r]
    rfl

/-- The denial text is the header, the in-order role enumeration, and the
guidance footer. -/
theorem rolesNeededContent_eq_enum (first : Nat) (rest : List Nat) :
    rolesNeededContent (first :: rest) =
      "You need either admin permissions or any of these roles to use this command:\n"
        ++ enumerateRoles (first :: rest)
        ++ "\n(`/authorities` to adjust authority status for this server)" := by
  simp only [rolesNeededContent, foldl_roles_enum]

/-! # Claim theorems -/

/-- C2 counterexample: with the member record absent from the cache the
permission computation does return a typed cache-miss, yet
`_check_authority` proceeds exactly as for an actor with the empty
permission set: with no configured authority roles it returns the plain
admin-needed denial — identical to the output for a cached member with no
permissions — instead of treating "unknown" distinctly from "denied". -/
theorem check_authority_treats_miss_as_empty_cex :
    permissions_root ctxA.cache 1 2 = Except.error (CacheMiss.member 2 1) ∧
    _check_authority ctxA 1 (some 2) = Except.ok (some adminNeededContent) ∧
    _check_authority
        ⟨⟨fun _ _ => some ⟨[]⟩, fun _ _ => some 0⟩, fun _ => [], fun _ => emptyBucket⟩
        1 (some 2) =
      Except.ok (some adminNeededContent) := by
  refine ⟨rfl, rfl, rfl⟩

/-- C2 (amended): the effective-permission computation yields a typed
cache-miss when the member record is absent, but `_check_authority`
collapses that miss into the empty permission set
(`permissions.ok().unwrap_or_else(Permissions::empty)`) and proceeds:
with an empty configured authority list it returns a plain denial, and
only with a non-empty list is the "unknown" surfaced as an error, at the
later member-record role lookup. -/
theorem check_authority_collapses_permission_miss (ctx : Context) (a g : Nat)
    (hmem : ctx.cache.members g a = none) :
    permissions_root ctx.cache a g = Except.error (CacheMiss.member g a) ∧
    _check_authority ctx a (some g) =
      (if (config_authorities_collect ctx g).isEmpty then
        Except.ok (some adminNeededContent)
      else
        Except.error (BotError.custom s!"member {a} not cached for guild {g}")) := by
  refine ⟨permissions_root_none hmem, ?_⟩
  by_cases hcfg : (config_authorities_collect ctx g).isEmpty
  · simp [_check_authority, permissions_root_none hmem, hcfg, containsAdmin_zero,
      Except.toOption]
  · simp [_check_authority, permissions_root_none hmem, hcfg, containsAdmin_zero, hmem,
      Except.toOption]

/-- C2 witness: the amended theorem applied to the fixture with an empty
cache and authority roles 5 and 9 configured. -/
theorem check_authority_collapses_permission_miss_witness :
    ctxB.cache.members 2 1 = none ∧
    (permissions_root ctxB.cache 1 2 = Except.error (CacheMiss.member 2 1) ∧
      _check_authority ctxB 1 (some 2) =
        (if (config_authorities_collect ctxB 2).isEmpty then
          Except.ok (some adminNeededContent)
        else
          Except.error (BotError.custom "member 1 not cached for guild 2"))) :=
  ⟨rfl, check_authority_collapses_permission_miss ctxB 1 2 rfl⟩

/-- C3: in a guild whose configured authority list is non-empty, when the
actor's member record is missing from the cache (so the collapsed
permission set is empty and in particular lacks the administrator bit),
`_check_authority` returns an error — neither a silent allow nor a silent
deny. -/
theorem authority_member_miss_indeterminate (ctx : Context) (a g : Nat)
    (hmem : ctx.cache.members g a = none)
    (hne : config_authorities_collect ctx g ≠ []) :
    _check_authority ctx a (some g) =
      Except.error (BotError.custom s!"member {a} not cached for guild {g}") := by
  have hcfg : (config_authorities_collect ctx g).isEmpty = false := by
    cases h : config_authorities_collect ctx g with
    | nil => exact absurd h hne
    | cons x xs => rfl
  simp [_check_authority, permissions_root_none hmem, hcfg, containsAdmin_zero, hmem,
    Except.toOption]

/-- C3 witness: the theorem applied to the fixture with an empty cache and
authority roles 5 and 9 configured. -/
theorem authority_member_miss_indeterminate_witness :
    ctxB.cache.members 2 1 = none ∧
    config_authorities_collect ctxB 2 ≠ [] ∧
    _check_authority ctxB 1 (some 2) =
      Except.error (BotError.custom "member 1 not cached for guild 2") :=
  ⟨rfl, by decide, authority_member_miss_indeterminate ctxB 1 2 rfl (by decide)⟩

/-- C8: when the actor lacks the administrator bit, the guild's authority
list is non-empty, and the cached member holds none of the configured
roles, the denial message is the header followed by exactly the
configured authority roles, enumerated in the configured order, and the
guidance footer. -/
theorem denial_enumerates_configured_roles (ctx : Context) (a g : Nat)
    (m : Member)
    (hmem : ctx.cache.members g a = some m)
    (hadmin : containsAdmin (((permissions_root ctx.cache a g).toOption).getD 0) = false)
    (hne : config_authorities_collect ctx g ≠ [])
    (hroles : m.roles.any (fun role => (config_authorities_collect ctx g).contains role) = false) :
    _check_authority ctx a (some g) =
      Except.ok (some
        ("You need either admin permissions or any of these roles to use this command:\n"
          ++ enumerateRoles (config_authorities_collect ctx g)
          ++ "\n(`/authorities` to adjust authority status for this server)")) := by
  obtain ⟨first, rest, hl⟩ : ∃ first rest, config_authorities_collect ctx g = first :: rest := by
    cases h : config_authorities_collect ctx g with
    | nil => exact absurd h hne
    | cons x xs => exact ⟨x, xs, rfl⟩
  rw [hl] at hroles ⊢
  simp [_check_authority, hl, hadmin, hmem, hroles, rolesNeededContent_eq_enum]
  intro x hx
  have h := List.any_eq_false.mp hroles x hx
  simp at h
  exact h

/-- C8 witness: the theorem applied to the fixture in which the member
holds only role 7 while roles 5 and 9 are configured. -/
theorem denial_enumerates_configured_roles_witness :
    ctxC.cache.members 2 1 = some ⟨[7]⟩ ∧
    containsAdmin (((permissions_root ctxC.cache 1 2).toOption).getD 0) = false ∧
    config_authorities_collect ctxC 2 ≠ [] ∧
    _check_authority ctxC 1 (some 2) =
      Except.ok (some
        ("You need either admin permissions or any of these roles to use this command:\n"
          ++ enumerateRoles (config_authorities_collect ctxC 2)
          ++ "\n(`/authorities` to adjust authority status for this server)")) :=
  ⟨rfl, by decide, by decide,
    denial_enumerates_configured_roles ctxC 1 2 ⟨[7]⟩ rfl (by decide) (by decide) (by decide)⟩

/-- C1: for a privileged command whose authority check returned a denial
(`Ok(Some(msg))`) or an indeterminate error, the router rejects before
the rate-limit step: the bucket registry is returned unchanged and the
gate trace contains no bucket take, so the invocation consumes no
rate-limit token. -/
theorem denied_invocation_consumes_no_token (ctx : Context) (cmd : CommandMeta)
    (authored : AuthoredData) (now : Int)
    (hpriv : cmd.authority = true)
    (hden : (∃ m, check_authority ctx authored = Except.ok (some m)) ∨
      ∃ e, check_authority ctx authored = Except.error e) :
    (process_command ctx cmd authored now).ctx.buckets = ctx.buckets ∧
    ∀ ev ∈ (process_command ctx cmd authored now).trace,
      isBucketTakeEvent ev = false := by
  rcases hden with ⟨m, hm⟩ | ⟨e, he⟩
  · simp [process_command, hpriv, hm, isBucketTakeEvent]
  · simp [process_command, hpriv, he, isBucketTakeEvent]

/-- C1 witness: the theorem applied to a privileged command with the
`Default` bucket, an actor denied by the empty-authority fixture. -/
theorem denied_invocation_consumes_no_token_witness :
    (⟨true, some BucketName.Default⟩ : CommandMeta).authority = true ∧
    ((∃ m, check_authority ctxA ⟨some 1, some 2⟩ = Except.ok (some m)) ∨
      ∃ e, check_authority ctxA ⟨some 1, some 2⟩ = Except.error e) ∧
    ((process_command ctxA ⟨true, some BucketName.Default⟩ ⟨some 1, some 2⟩ 0).ctx.buckets =
        ctxA.buckets ∧
      ∀ ev ∈ (process_command ctxA ⟨true, some BucketName.Default⟩ ⟨some 1, some 2⟩ 0).trace,
        isBucketTakeEvent ev = false) :=
  ⟨rfl, Or.inl ⟨adminNeededContent, rfl⟩,
    denied_invocation_consumes_no_token ctxA ⟨true, some BucketName.Default⟩ ⟨some 1, some 2⟩ 0
      rfl (Or.inl ⟨adminNeededContent, rfl⟩)⟩

/-- C9: the Snipe bucket derives the fixed sentinel key 0, ignoring the
supplied actor and guild ids, so every actor contends on the same
counter: the entire rate-limit check is invariant in those ids. -/
theorem snipe_uses_sentinel_key (ctx : Context) (a1 a2 : Nat)
    (g1 g2 : Option Nat) (now : Int) :
    bucketKey BucketName.Snipe a1 g1 = 0 ∧
    _check_ratelimit ctx a1 g1 BucketName.Snipe now =
      _check_ratelimit ctx a2 g2 BucketName.Snipe now :=
  ⟨rfl, rfl⟩

/-- C10: a request carrying no author passes the rate-limit check with
`None` for every bucket name, and the registry is returned unchanged —
no token is consumed. -/
theorem no_author_skips_ratelimit (ctx : Context) (authored : AuthoredData)
    (bucket : BucketName) (now : Int) (h : authored.author = none) :
    check_ratelimit ctx authored bucket now = (none, ctx) := by
  simp [check_ratelimit, h]

/-- C10 witness: the theorem applied to an authorless request on the
Snipe bucket. -/
theorem no_author_skips_ratelimit_witness :
    (⟨none, none⟩ : AuthoredData).author = none ∧
    check_ratelimit ctxA ⟨none, none⟩ BucketName.Snipe 0 = (none, ctxA) :=
  ⟨rfl, no_author_skips_ratelimit ctxA ⟨none, none⟩ BucketName.Snipe 0 rfl⟩

/-- C5 counterexample: in an active session (owner 1, 60-second window,
initially minimized) two owner events both carrying the recognized action
"expand" yield only one state change and one re-render: the second
recognized owner event leaves the minimized flag unchanged and issues no
re-render, so a recognized owner action does not always change the flag
nor always trigger exactly one re-render. -/
theorem owner_recognized_action_noop_cex :
    runLoop 1 60 true 0
      [⟨5, 1, ReactionTy.custom (some "expand")⟩,
        ⟨6, 1, ReactionTy.custom (some "expand")⟩] = (false, [false]) ∧
    next_page false (ReactionTy.custom (some "expand")) = (false, []) :=
  ⟨rfl, rfl⟩

/-- C5 (amended): an owner control event with a recognized action that
toggles the view — "expand" while minimized or "minimize" while
expanded — changes exactly the minimized flag (to its toggle) and issues
exactly one re-render, rendering the new state; the same recognized
action applied when the view already matches it is a no-op that issues
no re-render. -/
theorem owner_toggle_changes_and_renders_once (m : Bool) (nm : String)
    (h : (nm = "expand" ∧ m = true) ∨ (nm = "minimize" ∧ m = false)) :
    next_page m (ReactionTy.custom (some nm)) = (!m, [!m]) ∧
    next_page (!m) (ReactionTy.custom (some nm)) = (!m, []) := by
  rcases h with ⟨h1, h2⟩ | ⟨h1, h2⟩ <;> subst h1 <;> subst h2 <;> exact ⟨rfl, rfl⟩

/-- C5 witness: the amended theorem applied to "expand" on a minimized
view. -/
theorem owner_toggle_changes_and_renders_once_witness :
    ((("expand" : String) = "expand" ∧ (true : Bool) = true) ∨
      (("expand" : String) = "minimize" ∧ (true : Bool) = false)) ∧
    (next_page true (ReactionTy.custom (some "expand")) = (false, [false]) ∧
      next_page false (ReactionTy.custom (some "expand")) = (false, [])) :=
  ⟨Or.inl ⟨rfl, rfl⟩,
    owner_toggle_changes_and_renders_once true "expand" (Or.inl ⟨rfl, rfl⟩)⟩

/-- C6: a control event from a non-owner actor is dropped by the
subscription filter before it reaches the session loop: inserting it
anywhere into the event sequence changes neither the final view state
nor the sequence of issued re-renders (nor does it reset the inactivity
window). -/
theorem non_owner_event_ignored (owner duration : Nat) (m : Bool)
    (last : Nat) (xs : List RawReaction) (e : RawReaction)
    (ys : List RawReaction) (h : e.user ≠ owner) :
    runLoop owner duration m last (xs ++ e :: ys) =
      runLoop owner duration m last (xs ++ ys) := by
  induction xs generalizing m last with
  | nil =>
    simp only [List.nil_append]
    rw [runLoop]
    simp [h]
  | cons x xs ih =>
    simp only [List.cons_append]
    rw [runLoop, runLoop]
    by_cases hx : x.user = owner
    · by_cases ht : x.time - last < duration <;> simp [hx, ht, ih]
    · simp [hx, ih]

/-- C6 witness: the theorem applied to a lone non-owner "expand" event. -/
theorem non_owner_event_ignored_witness :
    (⟨3, 2, ReactionTy.custom (some "expand")⟩ : RawReaction).user ≠ 1 ∧
    runLoop 1 60 true 0 ([] ++ ⟨3, 2, ReactionTy.custom (some "expand")⟩ :: []) =
      runLoop 1 60 true 0 ([] ++ []) :=
  ⟨by decide,
    non_owner_event_ignored 1 60 true 0 [] ⟨3, 2, ReactionTy.custom (some "expand")⟩ []
      (by decide)⟩

/-- C7 counterexample: with the 60-second timeout passed to start, the
deadline 0 + 60 elapses before the owner event at t = 100, yet that
event is still delivered — it arrives within 60 seconds of the previous
owner event at t = 50 — and mutates the view state back to minimized,
issuing a second re-render: the timeout bounds inactivity between owner
events, not the session's total lifetime. -/
theorem post_deadline_mutation_cex :
    0 + 60 < 100 ∧
    runLoop 1 60 true 0 [⟨50, 1, ReactionTy.custom (some "expand")⟩] =
      (false, [false]) ∧
    runLoop 1 60 true 0
      [⟨50, 1, ReactionTy.custom (some "expand")⟩,
        ⟨100, 1, ReactionTy.custom (some "minimize")⟩] = (true, [false, true]) :=
  ⟨by decide, rfl, rfl⟩

/-- C7 (amended): the timeout is a per-item inactivity window, not an
absolute deadline: once the next owner event arrives `duration` or more
seconds after the last delivered one, the stream yields `Elapsed`, the
loop exits, and neither that event nor any later one mutates the view
state or issues a re-render. -/
theorem inactivity_elapsed_stops_mutation (owner duration : Nat) (m : Bool)
    (last : Nat) (e : RawReaction) (rest : List RawReaction)
    (howner : e.user = owner) (hgap : duration ≤ e.time - last) :
    runLoop owner duration m last (e :: rest) = (m, []) := by
  rw [runLoop]
  simp [howner, Nat.not_lt.mpr hgap]

/-- C7 witness: the amended theorem applied to an owner event arriving
exactly at the end of the inactivity window (ties go to the timer), with
a later owner event behind it. -/
theorem inactivity_elapsed_stops_mutation_witness :
    (⟨60, 1, ReactionTy.custom (some "expand")⟩ : RawReaction).user = 1 ∧
    60 ≤ (⟨60, 1, ReactionTy.custom (some "expand")⟩ : RawReaction).time - 0 ∧
    runLoop 1 60 true 0
      [⟨60, 1, ReactionTy.custom (some "expand")⟩,
        ⟨70, 1, ReactionTy.custom (some "minimize")⟩] = (true, []) :=
  ⟨rfl, by decide,
    inactivity_elapsed_stops_mutation 1 60 true 0 ⟨60, 1, ReactionTy.custom (some "expand")⟩
      [⟨70, 1, ReactionTy.custom (some "minimize")⟩] rfl (by decide)⟩

/-- When every send succeeds, the send loop succeeds and emits one send
effect per installed emote, in order. -/
theorem sendLoop_ok (env : StartEnv)
    (h : ∀ e, env.sendOutcome e = HttpResult.ok) (l : List Emote) :
    sendLoop env l = (StartResult.ok, l.map Effect.sendReaction) := by
  induction l with
  | nil => rfl
  | cons e rest ih => simp [sendLoop, h e, ih]

/-- When every own-reaction deletion succeeds, the fallback loop succeeds
and emits one deletion effect per installed emote, in order. -/
theorem deleteOwnLoop_ok (env : StartEnv)
    (h : ∀ e, env.deleteOwn e = HttpResult.ok) (l : List Emote) :
    deleteOwnLoop env l = (StartResult.ok, l.map Effect.deleteOwnReaction) := by
  induction l with
  | nil => rfl
  | cons e rest ih => simp [deleteOwnLoop, h e, ih]

/-- The fallback loop only ever deletes reactions from its emote list. -/
theorem deleteOwnLoop_only_own (env : StartEnv) (l : List Emote) (e : Emote)
    (he : Effect.deleteOwnReaction e ∈ (deleteOwnLoop env l).2) : e ∈ l := by
  induction l with
  | nil => simp [deleteOwnLoop] at he
  | cons x rest ih =>
    cases hdo : env.deleteOwn x with
    | ok =>
      simp only [deleteOwnLoop, hdo, List.mem_cons, Effect.deleteOwnReaction.injEq] at he
      rcases he with he | he
      · simp [he]
      · simp [ih he]
    | err403 =>
      simp only [deleteOwnLoop, hdo, List.mem_cons, List.not_mem_nil, or_false,
        Effect.deleteOwnReaction.injEq] at he
      simp [he]
    | errOther =>
      simp only [deleteOwnLoop, hdo, List.mem_cons, List.not_mem_nil, or_false,
        Effect.deleteOwnReaction.injEq] at he
      simp [he]

/-- A failing first own-reaction deletion makes the fallback loop
propagate the error. -/
theorem deleteOwnLoop_head_fail (env : StartEnv) (x : Emote) (rest : List Emote)
    (h : env.deleteOwn x ≠ HttpResult.ok) :
    (deleteOwnLoop env (x :: rest)).1 = StartResult.err := by
  cases hdo : env.deleteOwn x with
  | ok => exact absurd hdo h
  | err403 => simp [deleteOwnLoop, hdo]
  | errOther => simp [deleteOwnLoop, hdo]

/-- Re-render effects are not own-reaction deletions. -/
theorem filter_own_updates (l : List Bool) :
    (l.map Effect.updateMessage).filter isOwnDeleteEffect = [] := by
  induction l with
  | nil => rfl
  | cons x xs ih => simp [isOwnDeleteEffect, ih]

/-- Send effects are not own-reaction deletions. -/
theorem filter_own_sends (l : List Emote) :
    (l.map Effect.sendReaction).filter isOwnDeleteEffect = [] := by
  induction l with
  | nil => rfl
  | cons x xs ih => simp [isOwnDeleteEffect, ih]

/-- The closing embed restore emits no effect or one message update. -/
theorem finalUpdateStep_effects (env : StartEnv) (b : Bool) :
    (finalUpdateStep env b).2 = [] ∨
      (finalUpdateStep env b).2 = [Effect.updateMessage true] := by
  cases b with
  | false => cases h : env.finalUpdate <;> simp [finalUpdateStep, h]
  | true => simp [finalUpdateStep]

/-- The closing embed restore succeeds when the update call succeeds. -/
theorem finalUpdateStep_ok (env : StartEnv) (b : Bool)
    (h : env.finalUpdate = HttpResult.ok) :
    (finalUpdateStep env b).1 = StartResult.ok := by
  cases b <;> simp [finalUpdateStep, h]

/-- C4 counterexample: a session whose bulk reaction revocation fails
with a 403 permission error and whose fallback own-reaction deletion
also fails returns an error from start — the cleanup failure is
propagated to the caller, not logged and swallowed. -/
theorem cleanup_error_propagates_cex :
    (profileStart true 1 60 []
        ⟨fun _ => HttpResult.ok, true, HttpResult.err403,
          fun _ => HttpResult.errOther, HttpResult.ok⟩).1 = StartResult.err :=
  rfl

/-- C4 (amended): when revoking all reactions fails with a 403
permission error, the engine falls back to deleting only its own
installed reactions (exactly the expand and minimize controls, in
installation order); if the fallback succeeds the session proceeds to
its normal close, but a failure of the fallback cleanup is propagated
as an error to the caller of start rather than logged and swallowed. -/
theorem perm_error_fallback_own_reactions (m0 : Bool) (owner duration : Nat)
    (events : List RawReaction) (env : StartEnv)
    (hsend : ∀ e, env.sendOutcome e = HttpResult.ok)
    (hrm : env.removeMsg = true)
    (hda : env.deleteAll = HttpResult.err403) :
    (∀ e, Effect.deleteOwnReaction e ∈ (profileStart m0 owner duration events env).2 →
      e ∈ profileReactions) ∧
    ((∀ e, env.deleteOwn e = HttpResult.ok) → env.finalUpdate = HttpResult.ok →
      (profileStart m0 owner duration events env).1 = StartResult.ok ∧
      (profileStart m0 owner duration events env).2.filter isOwnDeleteEffect =
        profileReactions.map Effect.deleteOwnReaction) ∧
    (env.deleteOwn Emote.expand ≠ HttpResult.ok →
      (profileStart m0 owner duration events env).1 = StartResult.err) := by
  have hsl := sendLoop_ok env hsend profileReactions
  refine ⟨?_, ?_, ?_⟩
  · intro e he
    simp only [profileStart, hsl, hrm, hda, reduceCtorEq, reduceIte] at he
    rcases hdo : deleteOwnLoop env profileReactions with ⟨fr, ftr⟩
    have honly : Effect.deleteOwnReaction e ∈ ftr → e ∈ profileReactions := by
      intro hin
      exact deleteOwnLoop_only_own env profileReactions e (by rw [hdo]; exact hin)
    rw [hdo] at he
    cases fr with
    | err =>
      simp only [List.mem_append, List.mem_cons, List.mem_map, List.not_mem_nil,
        List.append_nil, or_false, false_and, and_false, exists_false, false_or,
        reduceCtorEq] at he
      exact honly he
    | ok =>
      rcases finalUpdateStep_effects env (runLoop owner duration m0 0 events).1 with hf | hf <;>
        rw [hf] at he <;>
        simp only [List.mem_append, List.mem_cons, List.mem_map, List.not_mem_nil,
          List.append_nil, or_false, false_and, and_false, exists_false, false_or,
          reduceCtorEq] at he <;>
        exact honly he
  · intro hall hfu
    have hdl := deleteOwnLoop_ok env hall profileReactions
    have hfin1 := finalUpdateStep_ok env (runLoop owner duration m0 0 events).1 hfu
    rcases finalUpdateStep_effects env (runLoop owner duration m0 0 events).1 with hf | hf <;>
      constructor <;>
      simp only [profileStart, hsl, hrm, hda, hdl, hf, hfin1, reduceCtorEq, reduceIte] <;>
      simp [List.filter_append, filter_own_sends, filter_own_updates, isOwnDeleteEffect,
        profileReactions]
  · intro hne
    have hfb : (deleteOwnLoop env profileReactions).1 = StartResult.err :=
      deleteOwnLoop_head_fail env Emote.expand [Emote.minimize] hne
    simp [profileStart, hsl, hrm, hda, hfb]

/-- C4 witness: the amended theorem applied to a run with successful
sends, a still-tracked message, a 403 bulk revocation, and an
all-successful fallback. -/
theorem perm_error_fallback_own_reactions_witness :
    (∀ e, (⟨fun _ => HttpResult.ok, true, HttpResult.err403, fun _ => HttpResult.ok,
        HttpResult.ok⟩ : StartEnv).sendOutcome e = HttpResult.ok) ∧
    (⟨fun _ => HttpResult.ok, true, HttpResult.err403, fun _ => HttpResult.ok,
        HttpResult.ok⟩ : StartEnv).removeMsg = true ∧
    ((∀ e, Effect.deleteOwnReaction e ∈
        (profileStart true 1 60 []
          ⟨fun _ => HttpResult.ok, true, HttpResult.err403, fun _ => HttpResult.ok,
            HttpResult.ok⟩).2 → e ∈ profileReactions) ∧
      ((∀ e, (⟨fun _ => HttpResult.ok, true, HttpResult.err403, fun _ => HttpResult.ok,
          HttpResult.ok⟩ : StartEnv).deleteOwn e = HttpResult.ok) →
        (⟨fun _ => HttpResult.ok, true, HttpResult.err403, fun _ => HttpResult.ok,
          HttpResult.ok⟩ : StartEnv).finalUpdate = HttpResult.ok →
        (profileStart true 1 60 []
          ⟨fun _ => HttpResult.ok, true, HttpResult.err403, fun _ => HttpResult.ok,
            HttpResult.ok⟩).1 = StartResult.ok ∧
        (profileStart true 1 60 []
          ⟨fun _ => HttpResult.ok, true, HttpResult.err403, fun _ => HttpResult.ok,
            HttpResult.ok⟩).2.filter isOwnDeleteEffect =
          profileReactions.map Effect.deleteOwnReaction) ∧
      ((⟨fun _ => HttpResult.ok, true, HttpResult.err403, fun _ => HttpResult.ok,
          HttpResult.ok⟩ : StartEnv).deleteOwn Emote.expand ≠ HttpResult.ok →
        (profileStart true 1 60 []
          ⟨fun _ => HttpResult.ok, true, HttpResult.err403, fun _ => HttpResult.ok,
            HttpResult.ok⟩).1 = StartResult.err)) :=
  ⟨fun _ => rfl, rfl,
    perm_error_fallback_own_reactions true 1 60 []
      ⟨fun _ => HttpResult.ok, true, HttpResult.err403, fun _ => HttpResult.ok,
        HttpResult.ok⟩
      (fun _ => rfl) rfl rfl⟩

end Bathbot
